import Mathlib

/-!
# prime-sentinel: quoter and schoolcode plugins

A shallow embedding of `plugins/quoter.go` and `plugins/schoolcode.go`.

Conventions of the embedding.

* A Go `string` is a Lean `String` (a list of Unicode code points): message texts,
  triggers and table entries are valid UTF-8.  Where the source indexes a string by
  byte (`s[0]` in `getInitials`), the UTF-8 encoding is made explicit.
* A run-time panic (nil dereference, index out of range, `Int31n` on a non-positive
  bound) is the result `none`.
* Calls to the logger have no effect on any result and are left out.
* The table `schoolcodeData` is a parameter: a list of (code, name) records.  A lookup
  is `List.lookup`; `range` visits the records in an order the caller gives.
* The parts of the Go standard library whose tables are not reproduced here
  (`strconv.ParseFloat`, float multiplication, `math/rand`, Unicode case tables) are
  the fields of `GoLib`, together with the documented contracts the code relies on.
-/

namespace PrimeSentinel

/-! ## float64 -/

/-- A Go `float64` value: finite values are the rationals they denote. -/
inductive Float64 where
  | nan : Float64
  | negInf : Float64
  | fin (q : ℚ) : Float64
  | posInf : Float64

/-- The Go comparison `a < b` on float64 (false as soon as one side is NaN). -/
def Float64.lt : Float64 → Float64 → Bool
  | .nan, _ => false
  | _, .nan => false
  | .negInf, .negInf => false
  | .negInf, _ => true
  | _, .negInf => false
  | .fin a, .fin b => decide (a < b)
  | .fin _, .posInf => true
  | .posInf, _ => false

/-- The Go comparison `a >= b` on float64 (false as soon as one side is NaN). -/
def Float64.ge : Float64 → Float64 → Bool
  | .nan, _ => false
  | _, .nan => false
  | _, .negInf => true
  | .negInf, _ => false
  | .posInf, _ => true
  | .fin _, .posInf => false
  | .fin a, .fin b => decide (b ≤ a)

/-- The float64 constant written `0.99` in the source: the double nearest to 99/100. -/
def const099 : Float64 := .fin (4458563631096791 / 4503599627370496)

/-! ## Characters -/

/-- Two characters that are equal or are the two casings of one ASCII letter. -/
def caseVariant (a b : Char) : Bool :=
  a == b || (a.isAlpha && b.isAlpha && a.toLower == b.toLower)

/-- Go `unicode.IsSpace`: the Unicode White_Space property. -/
def isSpace (c : Char) : Bool :=
  let n := c.toNat
  (0x09 ≤ n && n ≤ 0x0D) || n == 0x20 || n == 0x85 || n == 0xA0 || n == 0x1680 ||
  (0x2000 ≤ n && n ≤ 0x200A) || n == 0x2028 || n == 0x2029 || n == 0x202F ||
  n == 0x205F || n == 0x3000

/-- The word characters of the regexp class `\w`, which `\b` is defined by: `[0-9A-Za-z_]`. -/
def isWordChar (c : Char) : Bool := c.isAlphanum || c == '_'

/-! ## Standard library parameters -/

/-- The Go standard library functions used by the plugins whose tables are not reproduced. -/
structure GoLib where
  /-- The call `strconv.ParseFloat(s, 64)`: the value, or the error. -/
  parseFloat : String → Except String Float64
  /-- The expression `int64(ts * 1000000)` on a float64 `ts`. -/
  scaleToInt64 : Float64 → Int
  /-- The call `rand.New(rand.NewSource(seed)).Float64()`. -/
  randFloat64 : Int → ℚ
  /-- Contract of `Float64`: the draw is in the half-open interval [0.0,1.0). -/
  randFloat64_nonneg : ∀ seed, 0 ≤ randFloat64 seed
  /-- Contract of `Float64`: the draw is in the half-open interval [0.0,1.0). -/
  randFloat64_lt_one : ∀ seed, randFloat64 seed < 1
  /-- The call `rand.New(rand.NewSource(seed)).Int31n(n)` for `n > 0`. -/
  randInt31n : Int → Nat → Nat
  /-- Contract of `Int31n`: the draw is in the half-open interval [0,n). -/
  randInt31n_lt : ∀ seed n, 0 < n → randInt31n seed n < n
  /-- Whether a pattern rune matches a text rune under the regexp flag `(?i)`
  (both lie in one orbit of `unicode.SimpleFold`). -/
  foldEq : Char → Char → Bool
  /-- A rune matches itself and, for an ASCII letter, its other casing. -/
  foldEq_caseVariant : ∀ a b, caseVariant a b = true → foldEq a b = true
  /-- The function `unicode.ToUpper`. -/
  toUpper : Char → Char
  /-- On ASCII, `unicode.ToUpper` maps `a`..`z` to `A`..`Z` and fixes the rest. -/
  toUpper_ascii : ∀ c : Char, c.toNat < 128 → toUpper c = c.toUpper

/-- A sample library: ASCII case tables, a parser that knows `"0"` and a constant generator. -/
def sampleLib : GoLib where
  parseFloat := fun s => if s = "0" then .ok (.fin 0) else .error "invalid syntax"
  scaleToInt64 := fun f => match f with
    | .fin q => (q * 1000000).floor
    | _ => 0
  randFloat64 := fun _ => 1 / 2
  randFloat64_nonneg := fun _ => by norm_num
  randFloat64_lt_one := fun _ => by norm_num
  randInt31n := fun _ _ => 0
  randInt31n_lt := fun _ _ h => h
  foldEq := caseVariant
  foldEq_caseVariant := fun _ _ h => h
  toUpper := Char.toUpper
  toUpper_ascii := fun _ _ => rfl

/-! ## quoter.go -/

/-- The type `quoteConfig`: config for a set of quotes. -/
structure quoteConfig where
  Triggers : List String
  Frequency : Float64
  Responses : List String

/-- A compiled trigger pattern: the regexp `(?i)\b<lit>\b`, where `lit` is matched literally
(`regexp.QuoteMeta` escapes every metacharacter of the trigger). -/
structure Regexp where
  lit : List Char
  deriving DecidableEq

/-- The type `Quoter`: plugin data for the quoter plugin. -/
structure Quoter where
  quoteConfigs : List quoteConfig
  triggerRegexps : List (String × Regexp)

/-- The fields of `slackscot.IncomingMessage` that the plugins read. -/
structure IncomingMessage where
  NormalizedText : String
  User : String
  Timestamp : String

/-- The field of `slack.User` that the plugin reads. -/
structure User where
  IsBot : Bool

/-- The type `slackscot.Answer` (its text; the options do not depend on the message). -/
structure Answer where
  Text : String
  deriving DecidableEq

/-- The collaborator `UserInfoFinder.GetUserInfo`: a user pointer (`none` is nil) and an error. -/
abbrev UserInfoFinder := String → Option User × Option String

/-- Whether the optional rune next to a position is a word character (no rune: no). -/
def isWordAt : Option Char → Bool
  | none => false
  | some c => isWordChar c

/-- The assertion `\b` between the rune before and the rune after a position. -/
def wordBoundary (before after : Option Char) : Bool :=
  isWordAt before != isWordAt after

/-- Match the literal under `(?i)` at the head of the text: the last rune consumed
(or the rune before the position when the literal is empty) and the rest of the text. -/
def matchLit (foldEq : Char → Char → Bool) :
    List Char → Option Char → List Char → Option (Option Char × List Char)
  | [], last, s => some (last, s)
  | _ :: _, _, [] => none
  | p :: ps, _, c :: s => if foldEq p c then matchLit foldEq ps (some c) s else none

/-- Match `\b<lit>\b` at one position of the text. -/
def matchHere (foldEq : Char → Char → Bool) (lit : List Char) (before : Option Char)
    (s : List Char) : Bool :=
  wordBoundary before s.head? &&
    match matchLit foldEq lit before s with
    | none => false
    | some (last, rest) => wordBoundary last rest.head?

/-- Unanchored search: try every position of the text from left to right. -/
def matchFrom (foldEq : Char → Char → Bool) (lit : List Char) : Option Char → List Char → Bool
  | before, [] => matchHere foldEq lit before []
  | before, c :: s => matchHere foldEq lit before (c :: s) || matchFrom foldEq lit (some c) s

/-- The method `Regexp.MatchString` on a compiled trigger pattern. -/
def Regexp.MatchString (L : GoLib) (exp : Regexp) (text : String) : Bool :=
  matchFrom L.foldEq exp.lit none text.data

/-- The call `regexp.Compile(fmt.Sprintf("(?i)\\b%s\\b", regexp.QuoteMeta(trigger)))`;
a quoted literal between two assertions always compiles. -/
def compileTrigger (trigger : String) : Regexp := ⟨trigger.data⟩

/-- The method `Quoter.getTriggerRegexp`: the cached Regexp, or a freshly compiled and
stored one. -/
def Quoter.getTriggerRegexp (q : Quoter) (trigger : String) : Regexp × Quoter :=
  match q.triggerRegexps.lookup trigger with
  | some exp => (exp, q)
  | none =>
    let exp := compileTrigger trigger
    (exp, { q with triggerRegexps := (trigger, exp) :: q.triggerRegexps })

/-- The function `parseFloatTimestampStringToInt`: the pair `(value, err)`. -/
def parseFloatTimestampStringToInt (L : GoLib) (timestamp : String) : Int × Option String :=
  match L.parseFloat timestamp with
  | .error err => (0, some err)
  | .ok ts => (L.scaleToInt64 ts, none)

/-- The loop of `matcher` over the triggers, carrying `found` and the regexp cache. -/
def Quoter.triggerLoop (L : GoLib) (text : String) : List String → Bool → Quoter → Bool × Quoter
  | [], found, q => (found, q)
  | trigger :: rest, found, q =>
    let r := q.getTriggerRegexp trigger
    Quoter.triggerLoop L text rest (if r.1.MatchString L text then true else found) r.2

/-- The function returned by `Quoter.matcher`: the decision (`none` is a panic) and the
plugin data after the call. -/
def Quoter.matcher (L : GoLib) (finder : UserInfoFinder) (q : Quoter) (triggers : List String)
    (frequency : Float64) (m : IncomingMessage) : Option Bool × Quoter :=
  match (finder m.User).1 with
  | none => (none, q)
  | some user =>
    if user.IsBot then (some false, q)
    else
      let r := Quoter.triggerLoop L m.NormalizedText triggers false q
      if !r.1 then (some false, r.2)
      else if Float64.ge frequency const099 then (some true, r.2)
      else
        let ts := (parseFloatTimestampStringToInt L m.Timestamp).1
        (some (Float64.lt (.fin (L.randFloat64 ts)) frequency), r.2)

/-- The conversion `int32(n)` of a non-negative `int`. -/
def toInt32 (n : Nat) : Int :=
  let m : Nat := n % 2 ^ 32
  if m < 2 ^ 31 then (m : Int) else (m : Int) - 2 ^ 32

/-- The function returned by `Quoter.answerer` (`none` is a panic). -/
def Quoter.answerer (L : GoLib) (responses : List String) (m : IncomingMessage) :
    Option Answer :=
  let ts := (parseFloatTimestampStringToInt L m.Timestamp).1
  let n := toInt32 responses.length
  if n ≤ 0 then none
  else
    match responses[L.randInt31n ts n.toNat]? with
    | none => none
    | some r => some ⟨r⟩

/-- An action of a `slackscot.Plugin` as `NewQuoter` builds it: the arguments captured by
its matcher and its answerer, and its registration data. -/
structure ActionDefinition where
  Hidden : Bool
  Triggers : List String
  Frequency : Float64
  Usage : String
  Description : String
  Responses : List String

/-- The type `slackscot.Plugin` as `NewQuoter` builds it. -/
structure Plugin where
  Name : String
  Commands : List ActionDefinition
  HearActions : List ActionDefinition

/-- The constant `QuoterPluginName`. -/
def QuoterPluginName : String := "quoter"

/-- The validation loop of `NewQuoter`: the error of the first config without responses. -/
def checkResponses : List quoteConfig → Option String
  | [] => none
  | c :: rest =>
    if c.Responses.length = 0 then
      some ("[" ++ QuoterPluginName ++ "] Error loading QuoteConfig, missing or 0-length responses")
    else checkResponses rest

/-- The registration loop of `NewQuoter`: a hear action and a command per config. -/
def registerActions : List quoteConfig → Plugin → Plugin
  | [], p => p
  | c :: rest, p =>
    let hear : ActionDefinition := ⟨true, c.Triggers, c.Frequency, "", "", c.Responses⟩
    let cmd : ActionDefinition :=
      ⟨false, c.Triggers, .fin 1, "|".intercalate c.Triggers, "Get a quotable quote", c.Responses⟩
    registerActions rest
      { p with HearActions := p.HearActions ++ [hear], Commands := p.Commands ++ [cmd] }

/-- The function `NewQuoter`, on the outcome of `config.Unmarshal`. -/
def NewQuoter (unmarshalled : Except String (List quoteConfig)) : Except String Plugin :=
  match unmarshalled with
  | .error err => .error ("[" ++ QuoterPluginName ++ "] Unable to unmarshal config: " ++ err)
  | .ok quoteConfigs =>
    match checkResponses quoteConfigs with
    | some err => .error err
    | none => .ok (registerActions quoteConfigs ⟨QuoterPluginName, [], []⟩)

/-! ## schoolcode.go -/

/-- The constant `maxResults`. -/
def maxResults : Nat := 10

/-- Strip a literal from the head of the text. -/
def dropLead : List Char → List Char → Option (List Char)
  | [], s => some s
  | _ :: _, [] => none
  | p :: ps, c :: s => if p = c then dropLead ps s else none

/-- The capture group of `schoolcodeRegex`, `^find school (\d{4})`, when the text matches. -/
def schoolcodeRegexGroup (text : String) : Option String :=
  match dropLead "find school ".data text.data with
  | some (a :: b :: c :: d :: _) =>
    if a.isDigit && b.isDigit && c.isDigit && d.isDigit then some (String.mk [a, b, c, d])
    else none
  | _ => none

/-- The capture group of `schoolstringRegex`, `^find school ([\D].*)`, when the text matches:
a rune that is not a digit, then every rune up to the next line feed. -/
def schoolstringRegexGroup (text : String) : Option String :=
  match dropLead "find school ".data text.data with
  | some (c :: rest) =>
    if c.isDigit then none else some (String.mk (c :: rest.takeWhile fun x => x != '\n'))
  | _ => none

/-- The call `re.FindStringSubmatch(text)` from the capture group: nil, or the whole match
and the group. -/
def findStringSubmatch (group : Option String) : List String :=
  match group with
  | none => []
  | some g => ["find school " ++ g, g]

/-- The matcher of the code-lookup command: `schoolcodeRegex.MatchString`. -/
def schoolcodeMatcher (m : IncomingMessage) : Bool :=
  (schoolcodeRegexGroup m.NormalizedText).isSome

/-- The matcher of the name-search command: `schoolstringRegex.MatchString`. -/
def schoolstringMatcher (m : IncomingMessage) : Bool :=
  (schoolstringRegexGroup m.NormalizedText).isSome

/-- The method `Schoolcode.schoolcodeAnswerer` over the table `schoolcodeData`
(`none` is a panic). -/
def schoolcodeAnswerer (schoolcodeData : List (String × String)) (m : IncomingMessage) :
    Option Answer :=
  let submatches := findStringSubmatch (schoolcodeRegexGroup m.NormalizedText)
  match submatches[1]? with
  | none => none
  | some code =>
    match schoolcodeData.lookup code with
    | none => some ⟨"No school found with school code " ++ code ++ "."⟩
    | some schoolname => some ⟨"`" ++ code ++ "` " ++ schoolname⟩

/-- The function `utf8.EncodeRune`: the bytes of a rune in a Go string. -/
def utf8EncodeRune (c : Char) : List Nat :=
  let n := c.toNat
  if n < 0x80 then [n]
  else if n < 0x800 then [0xC0 + n / 64, 0x80 + n % 64]
  else if n < 0x10000 then [0xE0 + n / 4096, 0x80 + n / 64 % 64, 0x80 + n % 64]
  else [0xF0 + n / 262144, 0x80 + n / 4096 % 64, 0x80 + n / 64 % 64, 0x80 + n % 64]

/-- The bytes of a Go string. -/
def utf8Bytes (s : List Char) : List Nat := s.flatMap utf8EncodeRune

/-- The scan of `strings.Fields`: `cur` is the field being read, in reverse. -/
def fieldsAux : List Char → List Char → List (List Char)
  | [], cur => if cur.isEmpty then [] else [cur.reverse]
  | c :: s, cur =>
    if isSpace c then
      if cur.isEmpty then fieldsAux s [] else cur.reverse :: fieldsAux s []
    else fieldsAux s (c :: cur)

/-- The function `strings.Fields`: the maximal runs of runes that are not white space. -/
def Fields (s : List Char) : List (List Char) := fieldsAux s []

/-- The expression `s[0]`: the first byte of a string (`none` is index out of range). -/
def firstByte (s : List Char) : Option Nat :=
  match s with
  | [] => none
  | c :: _ => (utf8EncodeRune c).head?

/-- The loop of `getInitials` over the fields. -/
def initialsOf : List (List Char) → Option (List Nat)
  | [] => some []
  | s :: rest =>
    match firstByte s with
    | none => none
    | some b =>
      match initialsOf rest with
      | none => none
      | some bs => some (b :: bs)

/-- The function `getInitials`: the bytes of the built string (`none` is a panic;
`WriteByte` returns no error). -/
def getInitials (input : String) : Option (List Nat) := initialsOf (Fields input.data)

/-- The function `strings.Contains`. -/
def Contains : List Char → List Char → Bool
  | [], substr => substr.isEmpty
  | c :: s, substr => substr.isPrefixOf (c :: s) || Contains s substr

/-- The function `strings.TrimSpace`. -/
def TrimSpace (s : List Char) : List Char :=
  ((s.dropWhile isSpace).reverse.dropWhile isSpace).reverse

/-- The function `strings.ToUpper`. -/
def ToUpper (L : GoLib) (s : List Char) : List Char := s.map L.toUpper

/-- The line of one school in an answer. -/
def formatSchool (code name : String) : String := "`" ++ code ++ "` " ++ name

/-- The search loop of `schoolstringAnswerer`, over the records in the order `range`
visits them. -/
def searchLoop (query : List Char) : List (String × String) → List String → Option (List String)
  | [], results => some results
  | (code, name) :: rest, results =>
    match getInitials name with
    | none => none
    | some initials =>
      if Contains name.data query || initials == utf8Bytes query then
        searchLoop query rest (results ++ [formatSchool code name])
      else searchLoop query rest results

/-- The method `Schoolcode.schoolstringAnswerer` over the table `schoolcodeData`, given in
the order in which `range` visits it (`none` is a panic). -/
def schoolstringAnswerer (L : GoLib) (schoolcodeData : List (String × String))
    (m : IncomingMessage) : Option Answer :=
  let submatches := findStringSubmatch (schoolstringRegexGroup m.NormalizedText)
  match submatches[1]? with
  | none => none
  | some g =>
    let query := ToUpper L (TrimSpace g.data)
    match searchLoop query schoolcodeData [] with
    | none => none
    | some results =>
      let l := results.length
      if l = 0 then some ⟨"No schools found with string " ++ String.mk query ++ "."⟩
      else if l > maxResults then
        some ⟨"There are more than " ++ toString maxResults ++
          " results. Please try a more specific query."⟩
      else some ⟨"\n".intercalate results⟩

/-! ## Notions of the specification -/

/-- Every cached pattern is the one compiled from its key. -/
def Quoter.CacheOK (q : Quoter) : Prop :=
  ∀ p ∈ q.triggerRegexps, p.2 = compileTrigger p.1

/-- The rune before a position that lies after `w`, when `before` is the rune before `w`. -/
def lastOr : Option Char → List Char → Option Char
  | before, [] => before
  | _, c :: w => lastOr (some c) w

/-- The runes `w` are an occurrence of the literal under `(?i)`: rune by rune, the pattern
rune matches the text rune. -/
def FoldOcc (foldEq : Char → Char → Bool) (lit w : List Char) : Prop :=
  List.Forall₂ (fun p c => foldEq p c = true) lit w

/-- The initials of a name in the words of the specification: the first character of each
whitespace-separated word, concatenated. -/
def specInitials (name : String) : List Char := (Fields name.data).filterMap List.head?

/-- A record matches a query in the words of the specification: the query is a substring of
the name, or the query equals the initials of the name. -/
def specMatch (q : List Char) (r : String × String) : Bool :=
  decide (q <:+: r.2.data) || decide (q = specInitials r.2)

/-- The test of the search loop of `schoolstringAnswerer` on one record. -/
def codeMatch (q : List Char) (r : String × String) : Bool :=
  Contains r.2.data q || getInitials r.2 == some (utf8Bytes q)

/-- The switch of `schoolstringAnswerer` on the number of results. -/
def answerSwitch (q : List Char) (results : List String) : Option Answer :=
  if results.length = 0 then some ⟨"No schools found with string " ++ String.mk q ++ "."⟩
  else if results.length > 10 then
    some ⟨"There are more than 10 results. Please try a more specific query."⟩
  else some ⟨"\n".intercalate results⟩

/-! ## Lemmas: the trigger loop and the regexp cache -/

theorem lookup_mem {α β : Type} [BEq α] [LawfulBEq α] (k : α) (v : β) :
    ∀ l : List (α × β), l.lookup k = some v → (k, v) ∈ l
  | [], h => by simp at h
  | (a, b) :: l, h => by
    by_cases hk : k = a
    · subst hk
      simp [List.lookup] at h
      simp [h]
    · have hne : (k == a) = false := by simpa using hk
      simp only [List.lookup, hne] at h
      exact List.mem_cons_of_mem _ (lookup_mem k v l h)

theorem getTriggerRegexp_fst (q : Quoter) (hq : q.CacheOK) (t : String) :
    (q.getTriggerRegexp t).1 = compileTrigger t := by
  unfold Quoter.getTriggerRegexp
  cases h : q.triggerRegexps.lookup t with
  | none => rfl
  | some e => exact hq (t, e) (lookup_mem t e _ h)

theorem getTriggerRegexp_cacheOK (q : Quoter) (hq : q.CacheOK) (t : String) :
    (q.getTriggerRegexp t).2.CacheOK := by
  unfold Quoter.getTriggerRegexp
  cases h : q.triggerRegexps.lookup t with
  | none =>
    intro p hp
    simp only [List.mem_cons] at hp
    rcases hp with rfl | hp
    · rfl
    · exact hq p hp
  | some e => exact hq

theorem triggerLoop_fst (L : GoLib) (text : String) :
    ∀ (ts : List String) (found : Bool) (q : Quoter), q.CacheOK →
      (Quoter.triggerLoop L text ts found q).1 =
        (found || ts.any fun t => (compileTrigger t).MatchString L text)
  | [], found, q, _ => by simp [Quoter.triggerLoop]
  | t :: ts, found, q, hq => by
    rw [Quoter.triggerLoop, triggerLoop_fst L text ts _ _ (getTriggerRegexp_cacheOK q hq t),
      getTriggerRegexp_fst q hq t]
    cases h : (compileTrigger t).MatchString L text <;> cases found <;> simp [h]

theorem triggerLoop_cacheOK (L : GoLib) (text : String) :
    ∀ (ts : List String) (found : Bool) (q : Quoter), q.CacheOK →
      (Quoter.triggerLoop L text ts found q).2.CacheOK
  | [], _, _, hq => hq
  | t :: ts, _, q, hq => by
    rw [Quoter.triggerLoop]
    exact triggerLoop_cacheOK L text ts _ _ (getTriggerRegexp_cacheOK q hq t)

/-- The empty cache that `NewQuoter` makes holds only compiled patterns. -/
theorem cacheOK_empty (cfgs : List quoteConfig) : (⟨cfgs, []⟩ : Quoter).CacheOK := by
  intro p hp
  cases hp

/-- A call of the matcher keeps the cache well formed. -/
theorem matcher_cacheOK (L : GoLib) (finder : UserInfoFinder) (q : Quoter) (hq : q.CacheOK)
    (triggers : List String) (f : Float64) (m : IncomingMessage) :
    (q.matcher L finder triggers f m).2.CacheOK := by
  have h := triggerLoop_cacheOK L m.NormalizedText triggers false q hq
  unfold Quoter.matcher
  cases (finder m.User).1 with
  | none => exact hq
  | some user =>
    simp only
    by_cases h1 : user.IsBot = true
    · rw [if_pos h1]; exact hq
    · rw [if_neg h1]
      by_cases h2 : (!(Quoter.triggerLoop L m.NormalizedText triggers false q).1) = true
      · rw [if_pos h2]; exact h
      · rw [if_neg h2]
        by_cases h3 : Float64.ge f const099 = true
        · rw [if_pos h3]; exact h
        · rw [if_neg h3]; exact h

/-- The result of the matcher for a sender that is not a bot: the trigger test, then the
frequency gate. -/
theorem matcher_nonbot (L : GoLib) (finder : UserInfoFinder) (q : Quoter) (hq : q.CacheOK)
    (triggers : List String) (f : Float64) (m : IncomingMessage) (u : User)
    (hu : (finder m.User).1 = some u) (hb : u.IsBot = false) :
    (q.matcher L finder triggers f m).1 =
      if (triggers.any fun t => (compileTrigger t).MatchString L m.NormalizedText) then
        (if Float64.ge f const099 then some true
         else some (Float64.lt (.fin (L.randFloat64 (parseFloatTimestampStringToInt L m.Timestamp).1)) f))
      else some false := by
  unfold Quoter.matcher
  simp only [hu, hb, triggerLoop_fst L _ _ _ _ hq, Bool.false_or]
  cases triggers.any fun t => (compileTrigger t).MatchString L m.NormalizedText
  · simp
  · cases Float64.ge f const099 <;> simp

theorem ge_const099_of_le (r : ℚ) (h : 99 / 100 ≤ r) : Float64.ge (.fin r) const099 = true := by
  simp only [Float64.ge, const099, decide_eq_true_eq]
  refine le_trans ?_ h
  norm_num

theorem lt_zero_false (L : GoLib) (s : Int) : Float64.lt (.fin (L.randFloat64 s)) (.fin 0) = false := by
  simp only [Float64.lt, decide_eq_false_iff_not, not_lt]
  exact L.randFloat64_nonneg s

theorem not_ge_const099_zero : Float64.ge (.fin 0) const099 = false := by
  simp only [Float64.ge, const099, decide_eq_false_iff_not, not_le]
  norm_num


/-! ## Lemmas: the trigger pattern -/

theorem lastOr_append (b : Option Char) (u v : List Char) :
    lastOr b (u ++ v) = lastOr (lastOr b u) v := by
  induction u generalizing b with
  | nil => rfl
  | cons c u ih => exact ih (some c)

theorem lastOr_cons (b : Option Char) (c : Char) (w : List Char) :
    lastOr b (c :: w) = (c :: w).getLast? := by
  induction w generalizing b c with
  | nil => rfl
  | cons d w ih => rw [lastOr, ih, List.getLast?_cons_cons]

theorem lastOr_none (w : List Char) : lastOr none w = w.getLast? := by
  cases w with
  | nil => rfl
  | cons c w => exact lastOr_cons none c w

theorem matchLit_eq_some_iff (foldEq : Char → Char → Bool) (lit : List Char) :
    ∀ (before : Option Char) (s : List Char) (last : Option Char) (rest : List Char),
      matchLit foldEq lit before s = some (last, rest) ↔
        ∃ w, s = w ++ rest ∧ FoldOcc foldEq lit w ∧ last = lastOr before w := by
  induction lit with
  | nil =>
    intro before s last rest
    simp only [matchLit, Option.some.injEq, Prod.mk.injEq, FoldOcc, List.forall₂_nil_left_iff]
    constructor
    · rintro ⟨rfl, rfl⟩
      exact ⟨[], rfl, rfl, rfl⟩
    · rintro ⟨w, rfl, rfl, rfl⟩
      exact ⟨rfl, rfl⟩
  | cons p ps ih =>
    intro before s last rest
    cases s with
    | nil =>
      constructor
      · intro h
        simp [matchLit] at h
      · rintro ⟨w, hw, hocc, _⟩
        cases hocc with
        | cons _ _ => simp at hw
    | cons c s =>
      rw [matchLit]
      by_cases hpc : foldEq p c = true
      · rw [if_pos hpc, ih]
        constructor
        · rintro ⟨w, rfl, hocc, rfl⟩
          exact ⟨c :: w, rfl, List.Forall₂.cons hpc hocc, rfl⟩
        · rintro ⟨w, hw, hocc, rfl⟩
          cases hocc with
          | cons h1 h2 =>
            simp only [List.cons_append, List.cons.injEq] at hw
            obtain ⟨rfl, rfl⟩ := hw
            exact ⟨_, rfl, h2, rfl⟩
      · rw [if_neg hpc]
        constructor
        · intro h
          simp at h
        · rintro ⟨w, hw, hocc, _⟩
          cases hocc with
          | cons h1 h2 =>
            simp only [List.cons_append, List.cons.injEq] at hw
            obtain ⟨rfl, rfl⟩ := hw
            exact absurd h1 hpc

theorem matchHere_iff (foldEq : Char → Char → Bool) (lit : List Char) (before : Option Char)
    (s : List Char) :
    matchHere foldEq lit before s = true ↔
      ∃ w post, s = w ++ post ∧ FoldOcc foldEq lit w ∧
        wordBoundary before s.head? = true ∧ wordBoundary (lastOr before w) post.head? = true := by
  unfold matchHere
  rw [Bool.and_eq_true]
  constructor
  · rintro ⟨hb, hm⟩
    cases h : matchLit foldEq lit before s with
    | none => rw [h] at hm; simp at hm
    | some r =>
      obtain ⟨last, rest⟩ := r
      rw [h] at hm
      obtain ⟨w, hs, hocc, hl⟩ := (matchLit_eq_some_iff foldEq lit before s last rest).1 h
      exact ⟨w, rest, hs, hocc, hb, hl ▸ hm⟩
  · rintro ⟨w, post, hs, hocc, hb, he⟩
    have h := (matchLit_eq_some_iff foldEq lit before s (lastOr before w) post).2 ⟨w, hs, hocc, rfl⟩
    rw [h]
    exact ⟨hb, he⟩

theorem matchFrom_iff (foldEq : Char → Char → Bool) (lit : List Char) :
    ∀ (s : List Char) (before : Option Char),
      matchFrom foldEq lit before s = true ↔
        ∃ pre w post, s = pre ++ w ++ post ∧ FoldOcc foldEq lit w ∧
          wordBoundary (lastOr before pre) (w ++ post).head? = true ∧
          wordBoundary (lastOr before (pre ++ w)) post.head? = true := by
  intro s
  induction s with
  | nil =>
    intro before
    rw [matchFrom, matchHere_iff]
    constructor
    · rintro ⟨w, post, hs, hocc, hb, he⟩
      exact ⟨[], w, post, hs, hocc, hs ▸ hb, he⟩
    · rintro ⟨pre, w, post, hs, hocc, hb, he⟩
      have h1 : pre = [] := by
        cases pre with
        | nil => rfl
        | cons a l => simp at hs
      subst h1
      have hs2 : w ++ post = [] := by simpa using hs.symm
      rw [hs2] at hb
      exact ⟨w, post, hs, hocc, hb, he⟩
  | cons c s ih =>
    intro before
    rw [matchFrom, Bool.or_eq_true, matchHere_iff, ih]
    constructor
    · rintro (⟨w, post, hs, hocc, hb, he⟩ | ⟨pre, w, post, hs, hocc, hb, he⟩)
      · exact ⟨[], w, post, hs, hocc, hs ▸ hb, he⟩
      · exact ⟨c :: pre, w, post, by simp [hs], hocc, hb, he⟩
    · rintro ⟨pre, w, post, hs, hocc, hb, he⟩
      cases pre with
      | nil =>
        have hs2 : w ++ post = c :: s := by simpa using hs.symm
        rw [hs2] at hb
        exact Or.inl ⟨w, post, hs, hocc, hb, he⟩
      | cons a pre =>
        simp only [List.cons_append, List.cons.injEq] at hs
        obtain ⟨rfl, rfl⟩ := hs
        exact Or.inr ⟨pre, w, post, rfl, hocc, hb, he⟩

/-- MatchString is the existence of a word-bounded occurrence. -/
theorem MatchString_iff (L : GoLib) (t text : String) :
    (compileTrigger t).MatchString L text = true ↔
      ∃ pre w post, text.data = pre ++ w ++ post ∧ FoldOcc L.foldEq t.data w ∧
        wordBoundary pre.getLast? (w ++ post).head? = true ∧
        wordBoundary (pre ++ w).getLast? post.head? = true := by
  unfold Regexp.MatchString compileTrigger
  rw [matchFrom_iff]
  simp only [lastOr_none]


theorem caseVariant_isWordChar (a b : Char) (h : caseVariant a b = true) :
    isWordChar a = isWordChar b := by
  unfold caseVariant at h
  simp only [Bool.or_eq_true, Bool.and_eq_true, beq_iff_eq] at h
  rcases h with rfl | ⟨⟨ha, hb⟩, _⟩
  · rfl
  · simp [isWordChar, Char.isAlphanum, ha, hb]

theorem isWordAt_head_of_variant (t w post : List Char)
    (hocc : List.Forall₂ (fun a b => caseVariant a b = true) t w)
    (ht : isWordAt t.head? = true) : isWordAt (w ++ post).head? = true := by
  cases hocc with
  | nil => simp [isWordAt] at ht
  | cons h1 _ =>
    simp only [List.head?_cons, isWordAt] at ht
    simpa [isWordAt, ← caseVariant_isWordChar _ _ h1] using ht

theorem isWordAt_last_of_variant (t w pre : List Char)
    (hocc : List.Forall₂ (fun a b => caseVariant a b = true) t w)
    (ht : isWordAt t.getLast? = true) : isWordAt (pre ++ w).getLast? = true := by
  have h := isWordAt_head_of_variant t.reverse w.reverse pre.reverse
    (List.forall₂_reverse_iff.2 hocc) (by simpa [List.head?_reverse] using ht)
  simpa [List.head?_reverse, ← List.reverse_append] using h

/-- The first rune of a text that starts with a word character. -/
theorem isWordAt_head_append (w post : List Char) (h : isWordAt w.head? = true) :
    isWordAt (w ++ post).head? = true := by
  cases w with
  | nil => simp [isWordAt] at h
  | cons a w => exact h

/-- The last rune of a text that ends with a word character. -/
theorem isWordAt_last_append (pre w : List Char) (h : isWordAt w.getLast? = true) :
    isWordAt (pre ++ w).getLast? = true := by
  have h1 := isWordAt_head_append w.reverse pre.reverse (by simpa [List.head?_reverse] using h)
  simpa [List.head?_reverse, ← List.reverse_append] using h1

theorem ge_const099_one : Float64.ge (.fin 1) const099 = true :=
  ge_const099_of_le 1 (by norm_num)


theorem cat_category (L : GoLib) : (compileTrigger "cat").MatchString L "category" = false := by
  show matchFrom L.foldEq ['c','a','t'] none ['c','a','t','e','g','o','r','y'] = false
  simp only [matchFrom, matchHere, matchLit, List.head?_cons, List.head?_nil]
  have e1 : wordBoundary (some 't') (some 'e') = false := by decide
  have e2 : wordBoundary (some 'c') (some 'a') = false := by decide
  have e3 : wordBoundary (some 'a') (some 't') = false := by decide
  have e4 : wordBoundary (some 'e') (some 'g') = false := by decide
  have e5 : wordBoundary (some 'g') (some 'o') = false := by decide
  have e6 : wordBoundary (some 'o') (some 'r') = false := by decide
  have e7 : wordBoundary (some 'r') (some 'y') = false := by decide
  simp only [e1, e2, e3, e4, e5, e6, e7, Bool.false_and, Bool.or_false, Bool.false_or]
  cases L.foldEq 'c' 'c' <;> cases L.foldEq 'a' 'a' <;> cases L.foldEq 't' 't' <;> simp [e1]


/-! ## Lemmas: the schoolcode patterns and the search -/

theorem dropLead_eq_some_iff (p : List Char) :
    ∀ (t s : List Char), dropLead p t = some s ↔ t = p ++ s := by
  induction p with
  | nil => intro t s; simp [dropLead, eq_comm]
  | cons a p ih =>
    intro t s
    cases t with
    | nil => simp [dropLead]
    | cons c t =>
      rw [dropLead]
      by_cases h : a = c
      · subst h; simp [ih]
      · rw [if_neg h]
        constructor
        · intro h1; simp at h1
        · intro h1
          simp only [List.cons_append, List.cons.injEq] at h1
          exact absurd h1.1.symm h

theorem dropLead_append (p s : List Char) : dropLead p (p ++ s) = some s :=
  (dropLead_eq_some_iff p _ _).2 rfl

theorem schoolcodeRegexGroup_digits (a b c d : Char) (rest : List Char)
    (ha : a.isDigit = true) (hb : b.isDigit = true) (hc : c.isDigit = true)
    (hd : d.isDigit = true) :
    schoolcodeRegexGroup (String.mk ("find school ".data ++ a :: b :: c :: d :: rest)) =
      some (String.mk [a, b, c, d]) := by
  unfold schoolcodeRegexGroup
  simp only [dropLead_append, ha, hb, hc, hd, Bool.and_self, if_true]

theorem schoolcodeRegexGroup_eq_some_iff (text g : String) :
    schoolcodeRegexGroup text = some g ↔
      ∃ a b c d rest, text.data = "find school ".data ++ a :: b :: c :: d :: rest ∧
        a.isDigit = true ∧ b.isDigit = true ∧ c.isDigit = true ∧ d.isDigit = true ∧
        g = String.mk [a, b, c, d] := by
  constructor
  · intro h
    unfold schoolcodeRegexGroup at h
    split at h
    · rename_i a b c d rest hdrop
      rw [dropLead_eq_some_iff] at hdrop
      split at h
      · rename_i hdig
        simp only [Bool.and_eq_true] at hdig
        obtain ⟨⟨⟨ha, hb⟩, hc⟩, hd⟩ := hdig
        simp only [Option.some.injEq] at h
        exact ⟨a, b, c, d, rest, hdrop, ha, hb, hc, hd, h.symm⟩
      · simp at h
    · simp at h
  · rintro ⟨a, b, c, d, rest, ht, ha, hb, hc, hd, rfl⟩
    have : text = String.mk ("find school ".data ++ a :: b :: c :: d :: rest) := by
      rw [← ht]
    rw [this]
    exact schoolcodeRegexGroup_digits a b c d rest ha hb hc hd

theorem schoolstringRegexGroup_eq_some_iff (text g : String) :
    schoolstringRegexGroup text = some g ↔
      ∃ c rest, text.data = "find school ".data ++ c :: rest ∧ c.isDigit = false ∧
        g = String.mk (c :: rest.takeWhile fun x => x != '\n') := by
  constructor
  · intro h
    unfold schoolstringRegexGroup at h
    split at h
    · rename_i c rest hdrop
      rw [dropLead_eq_some_iff] at hdrop
      split at h
      · simp at h
      · rename_i hdig
        simp only [Option.some.injEq] at h
        exact ⟨c, rest, hdrop, by simpa using hdig, h.symm⟩
    · simp at h
  · rintro ⟨c, rest, ht, hc, rfl⟩
    have : text = String.mk ("find school ".data ++ c :: rest) := by
      rw [← ht]
    rw [this]
    unfold schoolstringRegexGroup
    simp only [dropLead_append, hc]
    simp


theorem Contains_iff (sub : List Char) : ∀ s : List Char, Contains s sub = true ↔ sub <:+: s := by
  intro s
  induction s with
  | nil => simp [Contains]
  | cons c s ih => rw [Contains, Bool.or_eq_true, ih, List.isPrefixOf_iff_prefix, List.infix_cons_iff]

theorem fieldsAux_ne_nil : ∀ (s cur : List Char), ∀ f ∈ fieldsAux s cur, f ≠ [] := by
  intro s
  induction s with
  | nil =>
    intro cur f hf
    cases cur with
    | nil => simp [fieldsAux] at hf
    | cons a cur =>
      simp only [fieldsAux, List.isEmpty_cons, Bool.false_eq_true, if_false,
        List.mem_singleton] at hf
      subst hf
      simp
  | cons c s ih =>
    intro cur f hf
    rw [fieldsAux] at hf
    split at hf
    · cases cur with
      | nil => exact ih [] f (by simpa using hf)
      | cons a cur =>
        simp only [List.isEmpty_cons, Bool.false_eq_true, if_false, List.mem_cons] at hf
        rcases hf with rfl | hf
        · simp
        · exact ih [] f hf
    · exact ih _ f hf

theorem Fields_ne_nil (s : List Char) : ∀ f ∈ Fields s, f ≠ [] := fieldsAux_ne_nil s []

theorem utf8EncodeRune_ascii (c : Char) (h : c.toNat < 128) : utf8EncodeRune c = [c.toNat] := by
  simp [utf8EncodeRune, h]

theorem utf8EncodeRune_high (c : Char) (h : 128 ≤ c.toNat) :
    ∃ b bs, utf8EncodeRune c = b :: bs ∧ 128 ≤ b := by
  unfold utf8EncodeRune
  simp only
  split
  · omega
  · split
    · exact ⟨_, _, rfl, by omega⟩
    · split
      · exact ⟨_, _, rfl, by omega⟩
      · exact ⟨_, _, rfl, by omega⟩

theorem Char_toNat_inj (a b : Char) (h : a.toNat = b.toNat) : a = b := by
  apply Char.ext
  exact UInt32.toNat.inj h

theorem utf8Bytes_eq_map_toNat_iff : ∀ (q cs : List Char), (∀ x ∈ cs, x.toNat < 128) →
    (utf8Bytes q = cs.map Char.toNat ↔ q = cs) := by
  intro q
  induction q with
  | nil =>
    intro cs _
    cases cs <;> simp [utf8Bytes]
  | cons a q ih =>
    intro cs hcs
    have hcons : utf8Bytes (a :: q) = utf8EncodeRune a ++ utf8Bytes q := by
      simp [utf8Bytes]
    rw [hcons]
    cases cs with
    | nil =>
      by_cases ha : a.toNat < 128
      · simp [utf8EncodeRune_ascii a ha]
      · obtain ⟨b, bs, hb, _⟩ := utf8EncodeRune_high a (by omega)
        simp [hb]
    | cons x cs =>
      have hx : x.toNat < 128 := hcs x (by simp)
      have hcs2 : ∀ y ∈ cs, y.toNat < 128 := fun y hy => hcs y (by simp [hy])
      by_cases ha : a.toNat < 128
      · rw [utf8EncodeRune_ascii a ha]
        simp only [List.singleton_append, List.map_cons, List.cons.injEq, ih cs hcs2]
        constructor
        · rintro ⟨h1, h2⟩
          exact ⟨Char_toNat_inj _ _ h1, h2⟩
        · rintro ⟨rfl, rfl⟩
          exact ⟨rfl, rfl⟩
      · obtain ⟨b, bs, hb, hb2⟩ := utf8EncodeRune_high a (by omega)
        rw [hb]
        simp only [List.cons_append, List.map_cons, List.cons.injEq]
        constructor
        · rintro ⟨⟨h1, _⟩, _⟩
          omega
        · rintro ⟨rfl, _⟩
          omega

theorem initialsOf_ascii : ∀ fs : List (List Char),
    (∀ f ∈ fs, f ≠ []) → (∀ f ∈ fs, ∀ x, f.head? = some x → x.toNat < 128) →
    initialsOf fs = some ((fs.filterMap List.head?).map Char.toNat) := by
  intro fs
  induction fs with
  | nil => intro _ _; rfl
  | cons f fs ih =>
    intro hne hasc
    have ih2 := ih (fun g hg => hne g (by simp [hg])) (fun g hg => hasc g (by simp [hg]))
    cases f with
    | nil => exact absurd rfl (hne [] (by simp))
    | cons x f =>
      have hx : x.toNat < 128 := hasc (x :: f) (by simp) x rfl
      simp [initialsOf, firstByte, utf8EncodeRune_ascii x hx, ih2]

theorem initialsOf_isSome : ∀ fs : List (List Char),
    (∀ f ∈ fs, f ≠ []) → ∃ bs, initialsOf fs = some bs := by
  intro fs
  induction fs with
  | nil => intro _; exact ⟨[], rfl⟩
  | cons f fs ih =>
    intro hne
    obtain ⟨bs, hbs⟩ := ih (fun g hg => hne g (by simp [hg]))
    cases f with
    | nil => exact absurd rfl (hne [] (by simp))
    | cons x f =>
      by_cases hx : x.toNat < 128
      · exact ⟨x.toNat :: bs, by simp [initialsOf, firstByte, utf8EncodeRune_ascii x hx, hbs]⟩
      · obtain ⟨b, bs2, hb, _⟩ := utf8EncodeRune_high x (by omega)
        exact ⟨b :: bs, by simp [initialsOf, firstByte, hb, hbs]⟩

/-- The function `getInitials` never panics. -/
theorem getInitials_isSome (name : String) : ∃ bs, getInitials name = some bs :=
  initialsOf_isSome _ (Fields_ne_nil _)

theorem codeMatch_eq_specMatch (q : List Char) (r : String × String)
    (hasc : ∀ f ∈ Fields r.2.data, ∀ x, f.head? = some x → x.toNat < 128) :
    codeMatch q r = specMatch q r := by
  unfold codeMatch specMatch
  have h1 : Contains r.2.data q = decide (q <:+: r.2.data) := by
    rw [Bool.eq_iff_iff, Contains_iff]; simp
  have h2 : (getInitials r.2 == some (utf8Bytes q)) = decide (q = specInitials r.2) := by
    unfold getInitials specInitials
    rw [initialsOf_ascii _ (Fields_ne_nil _) hasc, Bool.eq_iff_iff]
    have hall : ∀ x ∈ (Fields r.2.data).filterMap List.head?, x.toNat < 128 := by
      intro x hx
      obtain ⟨f, hf, hfx⟩ := List.mem_filterMap.1 hx
      exact hasc f hf x hfx
    simp only [beq_iff_eq, Option.some.injEq, decide_eq_true_eq]
    rw [eq_comm, utf8Bytes_eq_map_toNat_iff q _ hall]
  rw [h1, h2]

theorem searchLoop_eq (q : List Char) : ∀ (data : List (String × String)) (acc : List String),
    searchLoop q data acc =
      some (acc ++ (data.filter (codeMatch q)).map fun r => formatSchool r.1 r.2) := by
  intro data
  induction data with
  | nil => intro acc; simp [searchLoop]
  | cons r data ih =>
    intro acc
    obtain ⟨code, name⟩ := r
    obtain ⟨bs, hbs⟩ := getInitials_isSome name
    rw [searchLoop, hbs]
    simp only
    have hcm : codeMatch q (code, name) = (Contains name.data q || bs == utf8Bytes q) := by
      simp [codeMatch, hbs]
    by_cases h : (Contains name.data q || bs == utf8Bytes q) = true
    · rw [if_pos h, ih, List.filter_cons_of_pos (hcm ▸ h)]
      simp
    · rw [if_neg h, ih, List.filter_cons_of_neg (hcm ▸ h)]


theorem schoolstringRegexGroup_nondigit (c : Char) (rest : List Char) (hc : c.isDigit = false) :
    schoolstringRegexGroup (String.mk ("find school ".data ++ c :: rest)) =
      some (String.mk (c :: rest.takeWhile fun x => x != '\n')) :=
  (schoolstringRegexGroup_eq_some_iff _ _).2 ⟨c, rest, rfl, hc, rfl⟩

theorem schoolstringAnswerer_eq (L : GoLib) (iter : List (String × String)) (c : Char)
    (rest : List Char) (uid ts : String) (hc : c.isDigit = false) :
    schoolstringAnswerer L iter ⟨String.mk ("find school ".data ++ c :: rest), uid, ts⟩ =
      answerSwitch (ToUpper L (TrimSpace (c :: rest.takeWhile fun x => x != '\n')))
        ((iter.filter (codeMatch (ToUpper L (TrimSpace (c :: rest.takeWhile fun x => x != '\n'))))).map
          fun r => formatSchool r.1 r.2) := by
  unfold schoolstringAnswerer
  simp only [schoolstringRegexGroup_nondigit c rest hc, findStringSubmatch, searchLoop_eq,
    List.nil_append]
  rfl

theorem toInt32_of_lt (n : Nat) (h : n < 2 ^ 31) : toInt32 n = (n : Int) := by
  unfold toInt32
  have h1 : n % 2 ^ 32 = n := Nat.mod_eq_of_lt (by omega)
  simp only [h1]
  rw [if_pos (by exact_mod_cast h)]

theorem answerer_none_of_toInt32_nonpos (L : GoLib) (R : List String) (m : IncomingMessage)
    (h : toInt32 R.length ≤ 0) : Quoter.answerer L R m = none := by
  unfold Quoter.answerer
  exact if_pos h

theorem checkResponses_eq_none_iff (cfgs : List quoteConfig) :
    checkResponses cfgs = none ↔ ∀ c ∈ cfgs, c.Responses ≠ [] := by
  induction cfgs with
  | nil => simp [checkResponses]
  | cons c cfgs ih =>
    rw [checkResponses]
    by_cases h : c.Responses.length = 0
    · rw [if_pos h]
      simp [List.length_eq_zero.1 h]
    · rw [if_neg h, ih]
      have : c.Responses ≠ [] := fun h2 => h (by simp [h2])
      simp [this]

/-! ## The claims -/

/-- C1: whatever the triggers, the frequency and the message, when the user-info lookup
returns a record with `IsBot = true` the function returned by `Quoter.matcher` returns
false. -/
theorem matcher_bot_returns_false (L : GoLib) (finder : UserInfoFinder) (q : Quoter)
    (triggers : List String) (frequency : Float64) (m : IncomingMessage) (user : User)
    (hu : (finder m.User).1 = some user) (hb : user.IsBot = true) :
    (q.matcher L finder triggers frequency m).1 = some false := by
  unfold Quoter.matcher
  simp [hu, hb]

/-- C1 at a concrete input: a bot writes a text that holds the trigger. -/
theorem matcher_bot_returns_false_witness :
    ((⟨[], []⟩ : Quoter).matcher sampleLib (fun _ => (some ⟨true⟩, none)) ["cat"] (.fin 1)
      ⟨"my cat is here", "B1", "0"⟩).1 = some false :=
  matcher_bot_returns_false sampleLib (fun _ => (some ⟨true⟩, none)) ⟨[], []⟩ ["cat"] (.fin 1)
    ⟨"my cat is here", "B1", "0"⟩ ⟨true⟩ rfl rfl

/-- C2: for a sender that is not a bot and a text matched by one of the triggers, the
matcher returns true for every timestamp string when the frequency passes the test
`frequency >= 0.99`, and false for every timestamp string when the frequency is 0.0. -/
theorem matcher_frequency_extremes (L : GoLib) (finder : UserInfoFinder) (q : Quoter)
    (triggers : List String) (text uid : String) (u : User) (hq : q.CacheOK)
    (hu : (finder uid).1 = some u) (hb : u.IsBot = false)
    (hm : ∃ t ∈ triggers, (compileTrigger t).MatchString L text = true) :
    (∀ f ts, Float64.ge f const099 = true →
      (q.matcher L finder triggers f ⟨text, uid, ts⟩).1 = some true) ∧
    (∀ ts, (q.matcher L finder triggers (.fin 0) ⟨text, uid, ts⟩).1 = some false) := by
  have hany : (triggers.any fun t => (compileTrigger t).MatchString L text) = true := by
    obtain ⟨t, ht, hmt⟩ := hm
    exact List.any_eq_true.mpr ⟨t, ht, hmt⟩
  constructor
  · intro f ts hf
    rw [matcher_nonbot L finder q hq triggers f ⟨text, uid, ts⟩ u hu hb]
    simp [hany, hf]
  · intro ts
    rw [matcher_nonbot L finder q hq triggers _ ⟨text, uid, ts⟩ u hu hb]
    simp [hany, not_ge_const099_zero, lt_zero_false]

/-- C2 at a concrete input: trigger `cat`, a text that holds it, an empty cache. -/
theorem matcher_frequency_extremes_witness :
    (∀ f ts, Float64.ge f const099 = true →
      ((⟨[], []⟩ : Quoter).matcher sampleLib (fun _ => (some ⟨false⟩, none)) ["cat"] f
        ⟨"my CaT is", "U1", ts⟩).1 = some true) ∧
    (∀ ts, ((⟨[], []⟩ : Quoter).matcher sampleLib (fun _ => (some ⟨false⟩, none)) ["cat"]
        (.fin 0) ⟨"my CaT is", "U1", ts⟩).1 = some false) :=
  matcher_frequency_extremes sampleLib (fun _ => (some ⟨false⟩, none)) ⟨[], []⟩ ["cat"]
    "my CaT is" "U1" ⟨false⟩ (by intro p hp; cases hp) rfl rfl ⟨"cat", by simp, by decide⟩

/-- C3, as stated, fails: the trigger `c++` stands as a separate word among other words in
the text, and the matcher at frequency 1.0 returns false, because `\b` does not hold
between `+` and a blank. -/
theorem matcher_nonword_edge_counterexample :
    ((⟨[], []⟩ : Quoter).matcher sampleLib (fun _ => (some ⟨false⟩, none)) ["c++"] (.fin 1)
      ⟨"i like c++ a lot", "U1", "0"⟩).1 = some false := by
  decide

/-- C3, amended: with a sender that is not a bot and frequency 1.0, (1) the matcher
returns true on every text `pre ++ w ++ post` where `w` is a trigger in any letter casing
that `(?i)` folds, `w` begins and ends with a word character, `pre` is empty or ends with
a character that is not a word character and `post` is empty or starts with one; (2) so
for a trigger whose first and last characters are word characters and `w` the trigger in
any casing of its ASCII letters; (3) it returns false on every text in which each
occurrence of each trigger has a word character on both sides of its left edge or of its
right edge; (4) it returns false when the trigger list is empty; (5) trigger `cat` against
the text `category` gives false. -/
theorem matcher_word_bounded_trigger (L : GoLib) (finder : UserInfoFinder) (q : Quoter)
    (triggers : List String) (uid ts : String) (u : User) (hq : q.CacheOK)
    (hu : (finder uid).1 = some u) (hb : u.IsBot = false) :
    (∀ t ∈ triggers, ∀ pre w post : List Char,
      FoldOcc L.foldEq t.data w →
      isWordAt w.head? = true → isWordAt w.getLast? = true →
      isWordAt pre.getLast? = false → isWordAt post.head? = false →
      (q.matcher L finder triggers (.fin 1) ⟨String.mk (pre ++ w ++ post), uid, ts⟩).1
        = some true) ∧
    (∀ t ∈ triggers, ∀ pre w post : List Char,
      isWordAt t.data.head? = true → isWordAt t.data.getLast? = true →
      List.Forall₂ (fun a b => caseVariant a b = true) t.data w →
      isWordAt pre.getLast? = false → isWordAt post.head? = false →
      (q.matcher L finder triggers (.fin 1) ⟨String.mk (pre ++ w ++ post), uid, ts⟩).1
        = some true) ∧
    (∀ text : String,
      (∀ t ∈ triggers, ∀ pre w post : List Char, text.data = pre ++ w ++ post →
        FoldOcc L.foldEq t.data w →
          (isWordAt pre.getLast? = true ∧ isWordAt (w ++ post).head? = true) ∨
          (isWordAt (pre ++ w).getLast? = true ∧ isWordAt post.head? = true)) →
      (q.matcher L finder triggers (.fin 1) ⟨text, uid, ts⟩).1 = some false) ∧
    (∀ text : String, (q.matcher L finder [] (.fin 1) ⟨text, uid, ts⟩).1 = some false) ∧
    (q.matcher L finder ["cat"] (.fin 1) ⟨"category", uid, ts⟩).1 = some false := by
  have hneg : ∀ (trs : List String) (text : String),
      (∀ t ∈ trs, ∀ pre w post : List Char, text.data = pre ++ w ++ post →
        FoldOcc L.foldEq t.data w →
          (isWordAt pre.getLast? = true ∧ isWordAt (w ++ post).head? = true) ∨
          (isWordAt (pre ++ w).getLast? = true ∧ isWordAt post.head? = true)) →
      (q.matcher L finder trs (.fin 1) ⟨text, uid, ts⟩).1 = some false := by
    intro trs text h
    rw [matcher_nonbot L finder q hq trs _ ⟨text, uid, ts⟩ u hu hb]
    have hany : (trs.any fun t => (compileTrigger t).MatchString L text) = false := by
      rw [List.any_eq_false]
      intro t ht hm
      obtain ⟨pre, w, post, hs, hocc, h1, h2⟩ := (MatchString_iff L t text).1 hm
      rcases h t ht pre w post hs hocc with ⟨ha, hb⟩ | ⟨ha, hb⟩
      · unfold wordBoundary at h1
        rw [ha, hb] at h1
        exact absurd h1 (by decide)
      · unfold wordBoundary at h2
        rw [ha, hb] at h2
        exact absurd h2 (by decide)
    simp [hany]
  have hpos : ∀ t ∈ triggers, ∀ pre w post : List Char,
      FoldOcc L.foldEq t.data w →
      isWordAt (w ++ post).head? = true → isWordAt (pre ++ w).getLast? = true →
      isWordAt pre.getLast? = false → isWordAt post.head? = false →
      (q.matcher L finder triggers (.fin 1) ⟨String.mk (pre ++ w ++ post), uid, ts⟩).1
        = some true := by
    intro t ht pre w post hocc hh hl hpre hpost
    rw [matcher_nonbot L finder q hq triggers _ ⟨_, uid, ts⟩ u hu hb]
    have hm : (compileTrigger t).MatchString L (String.mk (pre ++ w ++ post)) = true := by
      rw [MatchString_iff]
      refine ⟨pre, w, post, rfl, hocc, ?_, ?_⟩
      · unfold wordBoundary
        rw [hpre, hh]
        rfl
      · unfold wordBoundary
        rw [hpost, hl]
        rfl
    have hany : (triggers.any fun t =>
        (compileTrigger t).MatchString L (String.mk (pre ++ w ++ post))) = true :=
      List.any_eq_true.mpr ⟨t, ht, hm⟩
    rw [if_pos hany, if_pos ge_const099_one]
  refine ⟨?_, ?_, hneg triggers, ?_, ?_⟩
  · intro t ht pre w post hocc hh hl hpre hpost
    exact hpos t ht pre w post hocc (isWordAt_head_append w post hh)
      (isWordAt_last_append pre w hl) hpre hpost
  · intro t ht pre w post hh hl hocc hpre hpost
    exact hpos t ht pre w post
      (List.Forall₂.imp (fun a b h => L.foldEq_caseVariant a b h) hocc)
      (isWordAt_head_of_variant _ w post hocc hh)
      (isWordAt_last_of_variant _ w pre hocc hl) hpre hpost
  · intro text
    exact hneg [] text (by simp)
  · rw [matcher_nonbot L finder q hq _ _ ⟨_, uid, ts⟩ u hu hb]
    simp [cat_category L]

/-- C3, amended, at a concrete input: `CaT` between a blank and a comma. -/
theorem matcher_word_bounded_trigger_witness :
    ((⟨[], []⟩ : Quoter).matcher sampleLib (fun _ => (some ⟨false⟩, none)) ["cat"] (.fin 1)
      ⟨"my CaT, really", "U1", "0"⟩).1 = some true :=
  (matcher_word_bounded_trigger sampleLib (fun _ => (some ⟨false⟩, none)) ⟨[], []⟩ ["cat"]
    "U1" "0" ⟨false⟩ (by intro p hp; cases hp) rfl rfl).1 "cat" (by simp)
    ['m', 'y', ' '] ['C', 'a', 'T'] [',', ' ', 'r', 'e', 'a', 'l', 'l', 'y']
    (.cons (by decide) (.cons (by decide) (.cons (by decide) .nil)))
    (by decide) (by decide) (by decide) (by decide)

/-- C4, as stated, fails: on a response list of 2^31 elements the conversion
`int32(len(responses))` is negative and `Int31n` panics. -/
theorem answerer_int32_counterexample :
    Quoter.answerer sampleLib (List.replicate 2147483648 "a") ⟨"hi", "U1", "0"⟩ = none := by
  apply answerer_none_of_toInt32_nonpos
  rw [List.length_replicate]
  decide

/-- C4, amended: for every non-empty response list `R` of fewer than 2^31 elements and
every timestamp string `T`, the function returned by `Quoter.answerer` returns the Answer
whose text is `R[i]`, where `i` is the integer drawn in `[0, len(R))` from the generator
seeded with `parseFloatTimestampStringToInt(T)`; the result is a function of `R` and `T`
alone. -/
theorem answerer_selects_response (L : GoLib) (R : List String) (text uid T : String)
    (hne : R ≠ []) (hlen : R.length < 2 ^ 31) :
    (∃ i r, i = L.randInt31n (parseFloatTimestampStringToInt L T).1 R.length ∧
      i < R.length ∧ R[i]? = some r ∧
      Quoter.answerer L R ⟨text, uid, T⟩ = some ⟨r⟩) ∧
    (∀ text2 uid2 : String,
      Quoter.answerer L R ⟨text2, uid2, T⟩ = Quoter.answerer L R ⟨text, uid, T⟩) := by
  have hpos : 0 < R.length := List.length_pos.2 hne
  have hi := L.randInt31n_lt (parseFloatTimestampStringToInt L T).1 R.length hpos
  refine ⟨⟨_, R[L.randInt31n (parseFloatTimestampStringToInt L T).1 R.length], rfl, hi,
    List.getElem?_eq_getElem hi, ?_⟩, fun _ _ => rfl⟩
  unfold Quoter.answerer
  simp only [toInt32_of_lt _ hlen, Int.toNat_ofNat]
  rw [if_neg (by omega), List.getElem?_eq_getElem hi]

/-- C4, amended, at a concrete input: two responses and the timestamp `0`. -/
theorem answerer_selects_response_witness :
    (∃ i r, i = sampleLib.randInt31n (parseFloatTimestampStringToInt sampleLib "0").1 2 ∧
      i < 2 ∧ ["a", "b"][i]? = some r ∧
      Quoter.answerer sampleLib ["a", "b"] ⟨"hi", "U1", "0"⟩ = some ⟨r⟩) ∧
    (∀ text2 uid2 : String,
      Quoter.answerer sampleLib ["a", "b"] ⟨text2, uid2, "0"⟩ =
        Quoter.answerer sampleLib ["a", "b"] ⟨"hi", "U1", "0"⟩) :=
  answerer_selects_response sampleLib ["a", "b"] "hi" "U1" "0" (by simp) (by simp)

/-- C5: on a configuration that unmarshals into a list of quote configs, `NewQuoter`
returns an error exactly when one of the configs has an empty (or missing) responses
list, and a plugin exactly when none has; a config without triggers or with frequency
zero is accepted. -/
theorem NewQuoter_error_iff_empty_responses (cfgs : List quoteConfig) :
    ((∃ err, NewQuoter (.ok cfgs) = .error err) ↔ ∃ c ∈ cfgs, c.Responses = []) ∧
    ((∃ p, NewQuoter (.ok cfgs) = .ok p) ↔ ∀ c ∈ cfgs, c.Responses ≠ []) ∧
    (∀ (r : String) (rs : List String) (f : Float64) (ts : List String),
      (∃ p, NewQuoter (.ok [⟨[], f, r :: rs⟩]) = .ok p) ∧
      (∃ p, NewQuoter (.ok [⟨ts, .fin 0, r :: rs⟩]) = .ok p)) := by
  have key : ∀ cfgs : List quoteConfig,
      (∃ p, NewQuoter (.ok cfgs) = .ok p) ↔ ∀ c ∈ cfgs, c.Responses ≠ [] := by
    intro cfgs
    rw [← checkResponses_eq_none_iff]
    cases h : checkResponses cfgs <;> simp [NewQuoter, h]
  refine ⟨?_, key cfgs, ?_⟩
  · have h2 : (∃ c ∈ cfgs, c.Responses = []) ↔ ¬ ∀ c ∈ cfgs, c.Responses ≠ [] := by
      push_neg; rfl
    rw [h2, ← checkResponses_eq_none_iff]
    cases h : checkResponses cfgs <;> simp [NewQuoter, h]
  · intro r rs f ts
    exact ⟨(key _).2 (by simp), (key _).2 (by simp)⟩

/-- C6: on the text `find school ` followed by a code `c` of four digits,
`schoolcodeAnswerer` answers the code between backquotes and the name when the table maps
`c` to a name, and `No school found with school code c.` when `c` is not a key; so for
the table with the one entry 1234, Lincoln High. -/
theorem schoolcodeAnswerer_lookup (D : List (String × String)) (c uid ts : String)
    (hlen : c.data.length = 4) (hdig : ∀ x ∈ c.data, x.isDigit = true) :
    (∀ n, D.lookup c = some n →
      schoolcodeAnswerer D ⟨"find school " ++ c, uid, ts⟩ = some ⟨"`" ++ c ++ "` " ++ n⟩) ∧
    (D.lookup c = none →
      schoolcodeAnswerer D ⟨"find school " ++ c, uid, ts⟩ =
        some ⟨"No school found with school code " ++ c ++ "."⟩) ∧
    schoolcodeAnswerer [("1234", "Lincoln High")] ⟨"find school 1234", uid, ts⟩ =
      some ⟨"`1234` Lincoln High"⟩ ∧
    schoolcodeAnswerer [] ⟨"find school 1234", uid, ts⟩ =
      some ⟨"No school found with school code 1234."⟩ := by
  have hg : schoolcodeRegexGroup ("find school " ++ c) = some c := by
    obtain ⟨cs⟩ := c
    match cs, hlen, hdig with
    | [a, b, x, d], _, hdig =>
      exact schoolcodeRegexGroup_digits a b x d [] (hdig a (by simp)) (hdig b (by simp))
        (hdig x (by simp)) (hdig d (by simp))
  refine ⟨?_, ?_, rfl, rfl⟩
  · intro n hn
    simp [schoolcodeAnswerer, findStringSubmatch, hg, hn]
  · intro hn
    simp [schoolcodeAnswerer, findStringSubmatch, hg, hn]

/-- C6 at a concrete input: the code 1234 in a table that holds it. -/
theorem schoolcodeAnswerer_lookup_witness :
    schoolcodeAnswerer [("1234", "Lincoln High")] ⟨"find school " ++ "1234", "U1", "0"⟩ =
      some ⟨"`" ++ "1234" ++ "` " ++ "Lincoln High"⟩ :=
  (schoolcodeAnswerer_lookup [("1234", "Lincoln High")] "1234" "U1" "0" (by decide)
    (by decide)).1 "Lincoln High" (by decide)

/-- C7, as stated, fails: on the text `find school a`, a line feed, `b`, the claim takes
the query `A`, line feed, `B`, which matches no record of the table, while the pattern
stops at the line feed and the code lists the school named `A`. -/
theorem schoolstringAnswerer_line_feed_counterexample :
    [("0001", "A")].filter (specMatch (ToUpper sampleLib (TrimSpace "a\nb".data))) = [] ∧
    schoolstringAnswerer sampleLib [("0001", "A")] ⟨"find school a\nb", "U1", "0"⟩ =
      some ⟨"`0001` A"⟩ := by
  decide

/-- C7, amended: on the text `find school ` followed by `r`, where `r` starts with a
character `c` that is not a digit, let `q` be `c` followed by the characters of `r` up
to the next line feed, trimmed of surrounding white space and upper-cased, and let `M`
be the records of the table `D` whose name has `q` as a substring or has `q` as its
initials.  When every initial of every name is an ASCII character, then, whatever the
order `iter` in which the table is visited, `schoolstringAnswerer` answers
`No schools found with string q.` when `M` is empty, the more-than-10-results message
when `M` has more than 10 records, and otherwise the lines of the records of `M`, in
some order, joined by line feeds.  The query `abc` lists the school
`Alpha Beta Charlie`. -/
theorem schoolstringAnswerer_lists_matches (L : GoLib) (D iter : List (String × String))
    (c : Char) (rest : List Char) (uid ts : String) (hc : c.isDigit = false)
    (hperm : iter.Perm D) (hascii : ∀ r ∈ D, ∀ x ∈ specInitials r.2, x.toNat < 128) :
    let q := ToUpper L (TrimSpace (c :: rest.takeWhile fun x => x != '\n'))
    let M := D.filter (specMatch q)
    let answer :=
      schoolstringAnswerer L iter ⟨String.mk ("find school ".data ++ c :: rest), uid, ts⟩
    (M = [] → answer = some ⟨"No schools found with string " ++ String.mk q ++ "."⟩) ∧
    (10 < M.length →
      answer = some ⟨"There are more than 10 results. Please try a more specific query."⟩) ∧
    (M ≠ [] → M.length ≤ 10 →
      ∃ lines : List String, lines.Perm (M.map fun r => formatSchool r.1 r.2) ∧
        answer = some ⟨"\n".intercalate lines⟩) ∧
    schoolstringAnswerer L [("1234", "Alpha Beta Charlie")] ⟨"find school abc", uid, ts⟩ =
      some ⟨"`1234` Alpha Beta Charlie"⟩ := by
  intro q M answer
  have hfilter : iter.filter (codeMatch q) = iter.filter (specMatch q) := by
    apply List.filter_congr
    intro r hr
    exact codeMatch_eq_specMatch q r fun f hf x hx =>
      hascii r (hperm.mem_iff.1 hr) x (List.mem_filterMap.2 ⟨f, hf, hx⟩)
  have hpermM : (iter.filter (specMatch q)).Perm M := hperm.filter _
  have hans : answer =
      answerSwitch q ((iter.filter (specMatch q)).map fun r => formatSchool r.1 r.2) := by
    show schoolstringAnswerer L iter _ = _
    rw [schoolstringAnswerer_eq L iter c rest uid ts hc]
    show answerSwitch q ((iter.filter (codeMatch q)).map _) = _
    rw [hfilter]
  have hlen : ((iter.filter (specMatch q)).map fun r => formatSchool r.1 r.2).length
      = M.length := by
    rw [List.length_map, hpermM.length_eq]
  unfold answerSwitch at hans
  simp only [hlen] at hans
  refine ⟨?_, ?_, ?_, ?_⟩
  · intro hM
    rw [hans, if_pos (by simp [hM])]
  · intro hM
    rw [hans, if_neg (by omega), if_pos hM]
  · intro hM hle
    refine ⟨_, hpermM.map _, ?_⟩
    have : M.length ≠ 0 := fun h => hM (List.length_eq_zero.1 h)
    rw [hans, if_neg this, if_neg (by omega)]
  · have h := schoolstringAnswerer_eq L [("1234", "Alpha Beta Charlie")] 'a' ['b', 'c'] uid ts
      (by decide)
    have hq : ToUpper L (TrimSpace ('a' :: List.takeWhile (fun x => x != '\n') ['b', 'c']))
        = ['A', 'B', 'C'] := by
      have h1 : TrimSpace ('a' :: List.takeWhile (fun x => x != '\n') ['b', 'c'])
          = ['a', 'b', 'c'] := by decide
      rw [h1]
      simp only [ToUpper, List.map_cons, List.map_nil]
      rw [L.toUpper_ascii 'a' (by decide), L.toUpper_ascii 'b' (by decide),
        L.toUpper_ascii 'c' (by decide)]
      decide
    rw [hq] at h
    exact h.trans (by decide)

/-- C7, amended, at a concrete input: two schools match `beta`, and the table is visited
in the other order. -/
theorem schoolstringAnswerer_lists_matches_witness :
    ∃ lines : List String,
      lines.Perm ([("5678", "BETA SCHOOL"), ("1234", "ALPHA BETA CHARLIE")].map
        fun r => formatSchool r.1 r.2) ∧
      schoolstringAnswerer sampleLib [("1234", "ALPHA BETA CHARLIE"), ("5678", "BETA SCHOOL")]
        ⟨"find school beta", "U1", "0"⟩ = some ⟨"\n".intercalate lines⟩ :=
  (schoolstringAnswerer_lists_matches sampleLib
    [("5678", "BETA SCHOOL"), ("1234", "ALPHA BETA CHARLIE")]
    [("1234", "ALPHA BETA CHARLIE"), ("5678", "BETA SCHOOL")]
    'b' ['e', 't', 'a'] "U1" "0" (by decide) (List.Perm.swap _ _ _) (by decide)).2.2.1
    (by decide) (by decide)

/-- The slip that the amended C7 leaves out: `getInitials` takes the first byte of each
word, so a name with a word that starts outside ASCII is not found by its initials. -/
theorem schoolstringAnswerer_first_byte_initials :
    specMatch "ÉB".data ("0001", "École B") = true ∧
    schoolstringAnswerer sampleLib [("0001", "École B")] ⟨"find school ÉB", "U1", "0"⟩ =
      some ⟨"No schools found with string ÉB."⟩ := by
  decide

/-- C8: the code at an unparseable timestamp.  With a sender that is not a bot, a text
matched by a trigger and a frequency that fails the test `frequency >= 0.99`, the matcher
does not skip the message: it seeds the generator with 0 and returns whether the draw
is below the frequency. -/
theorem matcher_unparseable_timestamp_draws (L : GoLib) (finder : UserInfoFinder)
    (q : Quoter) (triggers : List String) (f : Float64) (text uid ts err : String) (u : User)
    (hq : q.CacheOK) (hu : (finder uid).1 = some u) (hb : u.IsBot = false)
    (hm : ∃ t ∈ triggers, (compileTrigger t).MatchString L text = true)
    (hf : Float64.ge f const099 = false) (hts : L.parseFloat ts = .error err) :
    (q.matcher L finder triggers f ⟨text, uid, ts⟩).1 =
      some (Float64.lt (.fin (L.randFloat64 0)) f) := by
  have hany : (triggers.any fun t => (compileTrigger t).MatchString L text) = true := by
    obtain ⟨t, ht, hmt⟩ := hm
    exact List.any_eq_true.mpr ⟨t, ht, hmt⟩
  rw [matcher_nonbot L finder q hq triggers f ⟨text, uid, ts⟩ u hu hb]
  simp [hany, hf, parseFloatTimestampStringToInt, hts]

/-- C8 at the failing input: frequency 0.98 and the timestamp `abc`; with a generator whose
draw at seed 0 is below 0.98 the matcher returns true. -/
theorem matcher_unparseable_timestamp_draws_witness :
    ((⟨[], []⟩ : Quoter).matcher sampleLib (fun _ => (some ⟨false⟩, none)) ["hi"]
      (.fin (98 / 100)) ⟨"hi", "U1", "abc"⟩).1 = some true :=
  (matcher_unparseable_timestamp_draws sampleLib (fun _ => (some ⟨false⟩, none)) ⟨[], []⟩
    ["hi"] (.fin (98 / 100)) "hi" "U1" "abc" "invalid syntax" ⟨false⟩
    (by intro p hp; cases hp) rfl rfl ⟨"hi", by simp, by decide⟩
    (by simp only [Float64.ge, const099, decide_eq_false_iff_not, not_le]; norm_num)
    rfl).trans
    (by simp only [Float64.lt, sampleLib, Option.some.injEq, decide_eq_true_eq]; norm_num)

/-- C9: the code at a failed user-info lookup.  When the lookup returns no user record,
the matcher dereferences the nil pointer at `user.IsBot` and panics, whatever the
triggers, the frequency and the message. -/
theorem matcher_lookup_failure_panics (L : GoLib) (finder : UserInfoFinder) (q : Quoter)
    (triggers : List String) (f : Float64) (m : IncomingMessage)
    (hu : (finder m.User).1 = none) :
    (q.matcher L finder triggers f m).1 = none := by
  unfold Quoter.matcher
  simp [hu]

/-- C9 at the failing input: the lookup returns no user and an error. -/
theorem matcher_lookup_failure_panics_witness :
    ((⟨[], []⟩ : Quoter).matcher sampleLib (fun _ => (none, some "user_not_found")) ["hi"]
      (.fin 1) ⟨"hi", "U1", "0"⟩).1 = none :=
  matcher_lookup_failure_panics sampleLib (fun _ => (none, some "user_not_found")) ⟨[], []⟩
    ["hi"] (.fin 1) ⟨"hi", "U1", "0"⟩ rfl

/-- C10: the code at the text `find school 12345`.  The matcher of the code lookup accepts
it, because the pattern has no boundary after the four digits, and the answer is the one
for the first four digits, 1234. -/
theorem schoolcodeMatcher_five_digits_accepted :
    schoolcodeMatcher ⟨"find school 12345", "U1", "0"⟩ = true ∧
    schoolcodeAnswerer [("1234", "Lincoln High")] ⟨"find school 12345", "U1", "0"⟩ =
      some ⟨"`1234` Lincoln High"⟩ := by
  decide

/-- What the two matchers do: the matcher of the code lookup accepts a text exactly when
the prefix `find school ` is followed by four digits, whatever comes after them; the
answer is then the one for those four digits; and no text is accepted by both the matcher
of the code lookup and the matcher of the name search. -/
theorem schoolcodeMatcher_accepts_iff (text uid ts : String) :
    (schoolcodeMatcher ⟨text, uid, ts⟩ = true ↔
      ∃ a b c d rest, text.data = "find school ".data ++ a :: b :: c :: d :: rest ∧
        a.isDigit = true ∧ b.isDigit = true ∧ c.isDigit = true ∧ d.isDigit = true) ∧
    (∀ a b c d rest, text.data = "find school ".data ++ a :: b :: c :: d :: rest →
        a.isDigit = true → b.isDigit = true → c.isDigit = true → d.isDigit = true →
        ∀ D, schoolcodeAnswerer D ⟨text, uid, ts⟩ =
          schoolcodeAnswerer D ⟨String.mk ("find school ".data ++ [a, b, c, d]), uid, ts⟩) ∧
    ¬ (schoolcodeMatcher ⟨text, uid, ts⟩ = true ∧
        schoolstringMatcher ⟨text, uid, ts⟩ = true) := by
  refine ⟨?_, ?_, ?_⟩
  · unfold schoolcodeMatcher
    rw [Option.isSome_iff_exists]
    constructor
    · rintro ⟨g, hg⟩
      obtain ⟨a, b, c, d, rest, h, ha, hb, hc, hd, _⟩ :=
        (schoolcodeRegexGroup_eq_some_iff _ _).1 hg
      exact ⟨a, b, c, d, rest, h, ha, hb, hc, hd⟩
    · rintro ⟨a, b, c, d, rest, h, ha, hb, hc, hd⟩
      exact ⟨_, (schoolcodeRegexGroup_eq_some_iff _ _).2
        ⟨a, b, c, d, rest, h, ha, hb, hc, hd, rfl⟩⟩
  · intro a b c d rest h ha hb hc hd D
    have h1 : schoolcodeRegexGroup text = some (String.mk [a, b, c, d]) :=
      (schoolcodeRegexGroup_eq_some_iff _ _).2 ⟨a, b, c, d, rest, h, ha, hb, hc, hd, rfl⟩
    have h2 := schoolcodeRegexGroup_digits a b c d [] ha hb hc hd
    simp only [schoolcodeAnswerer, h1, h2]
  · unfold schoolcodeMatcher schoolstringMatcher
    rw [Option.isSome_iff_exists, Option.isSome_iff_exists]
    rintro ⟨⟨g1, h1⟩, ⟨g2, h2⟩⟩
    obtain ⟨a, b, c, d, rest, ht, ha, _⟩ := (schoolcodeRegexGroup_eq_some_iff _ _).1 h1
    obtain ⟨x, rest2, ht2, hx, _⟩ := (schoolstringRegexGroup_eq_some_iff _ _).1 h2
    rw [ht] at ht2
    have h3 := List.append_cancel_left ht2
    simp only [List.cons.injEq] at h3
    rw [h3.1, hx] at ha
    exact absurd ha (by decide)

end PrimeSentinel
